import Mathlib

/-!
# sish: alias registration, session notification and relay

A shallow embedding of `sshmuxer/aliashandler.go` (`handleAliasListener`) and
`utils/conn.go` (`SSHConnection.SendMessage`, `SSHConnection.CleanUp`,
`CopyBoth`), together with the properties established about them.

Conventions.
* A Go `string` is a sequence of bytes: `GoString = List (Fin 256)`.
* A Go pointer to an `AliasHolder` is an index into the list of allocated
  holders (`State.heap`); `nil` is `none`.
* A `sync.Map` is an association list with at most one entry per key.
* Library and sibling-package calls whose code is not part of the two files
  (`utils.GetOpenAlias`, `roundrobin.New`, `UpsertServer`, `aurora.BgBlue`,
  `RemoteAddr`) are fields of an environment record `Env`.
-/

namespace Sish

/-! ## Go strings -/

/-- One byte of a Go string. -/
abbrev Byte := Fin 256

/-- A Go string: an immutable sequence of bytes. -/
abbrev GoString := List Byte

/-- The Go string holding the bytes of an ASCII literal. -/
def ascii (s : String) : GoString := s.toList.map (fun c => Fin.ofNat c.toNat)

/-! ## encoding/base64, StdEncoding -/

/-- The 64 characters of the standard base64 alphabet (RFC 4648 section 4),
`A-Z a-z 0-9 + /`, as used by Go's `base64.StdEncoding`. -/
def encodeStd : List Byte :=
  [65, 66, 67, 68, 69, 70, 71, 72, 73, 74, 75, 76, 77, 78, 79, 80,
   81, 82, 83, 84, 85, 86, 87, 88, 89, 90,
   97, 98, 99, 100, 101, 102, 103, 104, 105, 106, 107, 108, 109, 110, 111, 112,
   113, 114, 115, 116, 117, 118, 119, 120, 121, 122,
   48, 49, 50, 51, 52, 53, 54, 55, 56, 57, 43, 47]

/-- The padding character `=`. -/
def padChar : Byte := 61

/-- The table lookup `enc.encode[i]`; callers always pass an index below 64. -/
def encChar (i : Nat) : Byte := encodeStd.getD i 0

/-- The reverse table `enc.decodeMap[c]`: the index of `c` in the alphabet, or
`none` where Go stores `0xff`. -/
def decChar (c : Byte) : Option Nat :=
  if encodeStd.indexOf c < 64 then some (encodeStd.indexOf c) else none

/-- The call `base64.StdEncoding.EncodeToString(src)`: every three bytes
`a b c` make `val = a<<16 | b<<8 | c` and four characters
`val>>18&0x3F`, `val>>12&0x3F`, `val>>6&0x3F`, `val&0x3F`; a remainder of one
or two bytes is encoded the same way with the missing bytes zero and then
padded with `=`. Shifts and masks are written as division and remainder. -/
def EncodeToString : List Byte → GoString
  | [] => []
  | [a] =>
      let val := a.val * 65536
      [encChar (val / 262144 % 64), encChar (val / 4096 % 64), padChar, padChar]
  | [a, b] =>
      let val := a.val * 65536 + b.val * 256
      [encChar (val / 262144 % 64), encChar (val / 4096 % 64),
       encChar (val / 64 % 64), padChar]
  | a :: b :: c :: rest =>
      let val := a.val * 65536 + b.val * 256 + c.val
      encChar (val / 262144 % 64) :: encChar (val / 4096 % 64) ::
        encChar (val / 64 % 64) :: encChar (val % 64) :: EncodeToString rest

/-- The byte `byte(n)`: the low eight bits of `n`. -/
def toByte (n : Nat) : Byte := Fin.ofNat n

/-- Decoding of a sequence of base64 characters free of line breaks, one
quantum of four characters at a time: four alphabet characters give three
bytes; a final quantum `xx==` gives one byte and `xxx=` two; anything else is
a `CorruptInputError` (`none`). -/
def decodeQuanta : List Byte → Option (List Byte)
  | [] => some []
  | c0 :: c1 :: c2 :: c3 :: rest =>
      match decChar c0, decChar c1 with
      | some s0, some s1 =>
          match decChar c2, decChar c3 with
          | some s2, some s3 =>
              let val := s0 * 262144 + s1 * 4096 + s2 * 64 + s3
              match decodeQuanta rest with
              | some tl =>
                  some (toByte (val / 65536) :: toByte (val / 256) :: toByte val :: tl)
              | none => none
          | some s2, none =>
              if c3 = padChar ∧ rest = [] then
                let val := s0 * 262144 + s1 * 4096 + s2 * 64
                some [toByte (val / 65536), toByte (val / 256)]
              else none
          | none, _ =>
              if c2 = padChar ∧ c3 = padChar ∧ rest = [] then
                let val := s0 * 262144 + s1 * 4096
                some [toByte (val / 65536)]
              else none
      | _, _ => none
  | _ => none

/-- The call `base64.StdEncoding.DecodeString(s)` of Go's standard library
(non-strict mode): carriage returns and line feeds are ignored, the rest is
decoded quantum by quantum. -/
def DecodeString (s : GoString) : Option (List Byte) :=
  decodeQuanta (s.filter (fun c => c != 13 && c != 10))

/-! ## sync.Map -/

/-- The method `sync.Map.Store`: overwrite the value of an existing key, or add
a new entry. -/
def SyncMap.Store {κ ν : Type} [DecidableEq κ] : List (κ × ν) → κ → ν → List (κ × ν)
  | [], k, v => [(k, v)]
  | (k0, v0) :: m, k, v =>
      if k0 = k then (k, v) :: m else (k0, v0) :: SyncMap.Store m k v

/-- The method `sync.Map.Load`. -/
def SyncMap.Load {κ ν : Type} [DecidableEq κ] (m : List (κ × ν)) (k : κ) : Option ν :=
  (m.find? (fun e => decide (e.1 = k))).map Prod.snd

/-- The method `sync.Map.Delete`. -/
def SyncMap.Delete {κ ν : Type} [DecidableEq κ] (m : List (κ × ν)) (k : κ) : List (κ × ν) :=
  m.filter (fun e => !decide (e.1 = k))

/-! ## The alias registry -/

/-- A Go `error` value. -/
structure GoError where
  msg : String
deriving DecidableEq, Repr

/-- The fields of `url.URL` that matter here; the composite literal
`&url.URL{Host: h}` leaves every other field at its zero value. -/
structure URL where
  Scheme : GoString
  Opaque : GoString
  Host : GoString
  Path : GoString
  RawQuery : GoString
  Fragment : GoString
deriving DecidableEq, Repr

/-- A pointer to a session (`*utils.SSHConnection`). -/
abbrev SessionPtr := Nat

/-- A pointer to an `AliasHolder`: its index in `State.heap`. -/
abbrev HolderPtr := Nat

/-- The round-robin balancer is an opaque capability; its state is the
sequence of URLs passed to `UpsertServer` so far. -/
structure Balancer where
  upserts : List URL
deriving DecidableEq, Repr

/-- The struct `utils.AliasHolder`. -/
structure AliasHolder where
  AliasHost : GoString
  SSHConns : List (GoString × SessionPtr)
  Balancer : Balancer
deriving DecidableEq, Repr

/-- The struct `utils.State` (Global State) with the holders it points to:
`heap` lists every holder allocated so far, `AliasListeners` is the `sync.Map`
from alias identity to holder pointer, `SSHConnections` the `sync.Map` from
remote address to session. -/
structure State where
  heap : List AliasHolder
  AliasListeners : List (GoString × HolderPtr)
  SSHConnections : List (GoString × SessionPtr)
deriving DecidableEq, Repr

/-- The request struct `channelForwardMsg`. -/
structure channelForwardMsg where
  Addr : GoString
  Rport : Nat
deriving DecidableEq, Repr

/-- The listener handed to the handler; only `Addr().String()` is used. -/
structure ListenerHolder where
  Addr : GoString
deriving DecidableEq, Repr

/-- Calls that leave the two source files. `GetOpenAlias` reads the registry and
returns the alias identity with the holder to reuse, if any; `roundrobinNew` is
the error returned by `roundrobin.New(nil)` (`none` on success);
`UpsertServer` is the error the balancer returns for a URL given what it
already holds; `BgBlue` is the rendering of `aurora.BgBlue`; `RemoteAddr` is
`sshConn.SSHConn.RemoteAddr().String()`. -/
structure Env where
  GetOpenAlias : GoString → GoString → State → SessionPtr → GoString × Option HolderPtr
  roundrobinNew : Option GoError
  UpsertServer : Balancer → URL → Option GoError
  BgBlue : GoString → GoString
  RemoteAddr : SessionPtr → GoString

/-- Lines written through the `log` package. -/
inductive LogLine where
  | balancerInitError (err : GoError)
  | upsertFailed
  | forwardingStarted (tag validAlias listener remote : GoString)
deriving DecidableEq, Repr

/-- The five values returned by `handleAliasListener`, with the state it leaves
behind and the lines it logged. -/
structure Outcome where
  aH : Option HolderPtr
  serverURL : Option URL
  validAlias : GoString
  requestMessages : GoString
  err : Option GoError
  state : State
  logs : List LogLine

/-- The statement `aH.SSHConns.Store(addr, sshConn)` on the holder `p` points to.
A pointer the program holds always points to an allocated holder; for any
other index the heap is left as it is. -/
def storeConn (st : State) (p : HolderPtr) (addr : GoString) (sshConn : SessionPtr) : State :=
  let f : AliasHolder → AliasHolder :=
    fun h => { h with SSHConns := SyncMap.Store h.SSHConns addr sshConn }
  { st with heap := st.heap.modify f p }

/-- The effect of `aH.Balancer.UpsertServer(u)` on the balancer of holder `p`. -/
def upsert (st : State) (p : HolderPtr) (u : URL) : State :=
  let f : AliasHolder → AliasHolder :=
    fun h => { h with Balancer := ⟨h.Balancer.upserts ++ [u]⟩ }
  { st with heap := st.heap.modify f p }

/-- The balancer of the holder `p` points to. -/
def balancerAt (st : State) (p : HolderPtr) : Balancer :=
  ((st.heap[p]?).map (fun h => h.Balancer)).getD ⟨[]⟩

/-- The format `fmt.Sprintf("%s: %s\r\n", tag, alias)`. -/
def statusLine (tag validAlias : GoString) : GoString :=
  tag ++ [58, 32] ++ validAlias ++ [13, 10]

/-- The literal `&url.URL{Host: base64.StdEncoding.EncodeToString([]byte(addr))}`. -/
def encodedURL (addr : GoString) : URL :=
  { Scheme := [], Opaque := [], Host := EncodeToString addr,
    Path := [], RawQuery := [], Fragment := [] }

/-- Lines 35 to 49 of `handleAliasListener`: the part after the holder `p` has
been found or created. -/
def registerBackend (env : Env) (requestMessages : GoString) (listenerHolder : ListenerHolder)
    (st : State) (sshConn : SessionPtr) (validAlias : GoString) (p : HolderPtr) : Outcome :=
  let st1 := storeConn st p listenerHolder.Addr sshConn
  let serverURL : URL := encodedURL listenerHolder.Addr
  let err := env.UpsertServer (balancerAt st1 p) serverURL
  let st2 := upsert st1 p serverURL
  let tag := env.BgBlue (ascii "TCP Alias")
  { aH := some p
    serverURL := some serverURL
    validAlias := validAlias
    requestMessages := requestMessages ++ statusLine tag validAlias
    err := none
    state := st2
    logs := (if err.isSome then [LogLine.upsertFailed] else []) ++
      [LogLine.forwardingStarted tag validAlias listenerHolder.Addr (env.RemoteAddr sshConn)] }

/-- The literal `&utils.AliasHolder{AliasHost: validAlias, SSHConns: &sync.Map{},
Balancer: lb}` with `lb` the balancer just made by `roundrobin.New(nil)`. -/
def newHolder (validAlias : GoString) : AliasHolder :=
  { AliasHost := validAlias, SSHConns := [], Balancer := ⟨[]⟩ }

/-- The function `handleAliasListener` of `sshmuxer/aliashandler.go`. -/
def handleAliasListener (env : Env) (check : channelForwardMsg) (stringPort : GoString)
    (requestMessages : GoString) (listenerHolder : ListenerHolder) (state : State)
    (sshConn : SessionPtr) : Outcome :=
  match env.GetOpenAlias check.Addr stringPort state sshConn with
  | (validAlias, none) =>
      match env.roundrobinNew with
      | some err =>
          { aH := none, serverURL := none, validAlias := [], requestMessages := [],
            err := some err, state := state, logs := [LogLine.balancerInitError err] }
      | none =>
          let p := state.heap.length
          let aH : AliasHolder := newHolder validAlias
          let st1 : State :=
            { state with
              heap := state.heap ++ [aH]
              AliasListeners := SyncMap.Store state.AliasListeners validAlias p }
          registerBackend env requestMessages listenerHolder st1 sshConn validAlias p
  | (validAlias, some p) =>
      registerBackend env requestMessages listenerHolder state sshConn validAlias p


/-! ## Calls in sequence and interleaved -/

/-- A run of calls of `handleAliasListener` one after the other for the same
forward request, each with its own listener and session; every call starts in
the state the previous one left. -/
def runCalls (env : Env) (check : channelForwardMsg) (stringPort requestMessages : GoString) :
    List (ListenerHolder × SessionPtr) → State → List Outcome × State
  | [], st => ([], st)
  | (l, s) :: rest, st =>
      let o := handleAliasListener env check stringPort requestMessages l st s
      let r := runCalls env check stringPort requestMessages rest o.state
      (o :: r.1, r.2)

/-- The arguments of one call of `handleAliasListener`. -/
structure Call where
  check : channelForwardMsg
  stringPort : GoString
  requestMessages : GoString
  listenerHolder : ListenerHolder
  sshConn : SessionPtr
deriving DecidableEq, Repr

/-- Where a call of `handleAliasListener` stands between two accesses to shared
memory: before the lookup (line 16); holding a nil holder, before the balancer
and holder are built (lines 19 to 30); holding a new holder not yet stored in
Global State (line 32); before the backend map is written (line 35); before the
balancer is updated (line 41); returned, with the holder, URL and error it
returned. -/
inductive Pc where
  | atLookup
  | atCreate (validAlias : GoString)
  | atPublish (validAlias : GoString) (p : HolderPtr)
  | atStoreConn (validAlias : GoString) (p : HolderPtr)
  | atUpsert (validAlias : GoString) (p : HolderPtr)
  | returned (aH : Option HolderPtr) (serverURL : Option URL) (err : Option GoError)
deriving DecidableEq, Repr

/-- One step of a call of `handleAliasListener`: the statements up to and
including its next access to shared memory. -/
def stepCall (env : Env) (c : Call) : Pc → State → Pc × State
  | Pc.atLookup, st =>
      match env.GetOpenAlias c.check.Addr c.stringPort st c.sshConn with
      | (validAlias, none) => (Pc.atCreate validAlias, st)
      | (validAlias, some p) => (Pc.atStoreConn validAlias p, st)
  | Pc.atCreate validAlias, st =>
      match env.roundrobinNew with
      | some err => (Pc.returned none none (some err), st)
      | none =>
          let aH : AliasHolder := newHolder validAlias
          (Pc.atPublish validAlias st.heap.length, { st with heap := st.heap ++ [aH] })
  | Pc.atPublish validAlias p, st =>
      (Pc.atStoreConn validAlias p,
        { st with AliasListeners := SyncMap.Store st.AliasListeners validAlias p })
  | Pc.atStoreConn validAlias p, st =>
      (Pc.atUpsert validAlias p, storeConn st p c.listenerHolder.Addr c.sshConn)
  | Pc.atUpsert _ p, st =>
      (Pc.returned (some p) (some (encodedURL c.listenerHolder.Addr)) none,
        upsert st p (encodedURL c.listenerHolder.Addr))
  | Pc.returned aH serverURL err, st => (Pc.returned aH serverURL err, st)

/-- Two concurrent calls and the state they share. -/
structure Pair where
  first : Pc
  second : Pc
  state : State
deriving DecidableEq, Repr

/-- Two calls run under a schedule: each entry names the call that takes the
next step (`false` the first call, `true` the second). -/
def runSchedule (env : Env) (c1 c2 : Call) : List Bool → Pair → Pair
  | [], r => r
  | false :: sched, r =>
      let n := stepCall env c1 r.first r.state
      runSchedule env c1 c2 sched { first := n.1, second := r.second, state := n.2 }
  | true :: sched, r =>
      let n := stepCall env c2 r.second r.state
      runSchedule env c1 c2 sched { first := r.first, second := n.1, state := n.2 }

/-- The alias lookup that reads the registry: the alias identity is
`addr:port`, the holder is the one stored under it, if any. Used as the
`GetOpenAlias` of concrete environments. -/
def lookupAlias (addr port : GoString) (st : State) (_ : SessionPtr) :
    GoString × Option HolderPtr :=
  (addr ++ [58] ++ port, SyncMap.Load st.AliasListeners (addr ++ [58] ++ port))

/-- A concrete environment: registry lookup, balancer construction succeeds,
every upsert is accepted. -/
def okEnv : Env :=
  { GetOpenAlias := lookupAlias
    roundrobinNew := none
    UpsertServer := fun _ _ => none
    BgBlue := fun s => s
    RemoteAddr := fun _ => ascii "198.51.100.7:50000" }

/-- A concrete environment in which balancer construction fails. -/
def failNewEnv : Env := { okEnv with roundrobinNew := some ⟨"balancer construction failed"⟩ }

/-- A concrete environment in which the balancer rejects every URL. -/
def rejectEnv : Env := { okEnv with UpsertServer := fun _ _ => some ⟨"server rejected"⟩ }

/-- The Global State of a server that has registered nothing yet. -/
def emptyState : State := { heap := [], AliasListeners := [], SSHConnections := [] }

/-! ## utils/conn.go: sessions -/

/-- The channel `Close chan bool`. The source only ever closes this channel
(`close(s.Close)`) and never sends on it, so its state is whether it has been
closed; a receive `<-s.Close` is ready exactly when it has. -/
structure CloseSignal where
  closed : Bool
deriving DecidableEq, Repr

/-- The channel `Messages chan string`: a bounded FIFO queue of pending lines.
`cap` is the number of lines it can hold before a send has to wait (buffer
slots, plus receivers already waiting for a line). The source never closes
this channel. -/
structure MessageQueue where
  buf : List GoString
  cap : Nat
deriving DecidableEq, Repr

/-- The struct `SSHConnection`. `RemoteAddr`, `User` and `transportClosed`
stand for the `*ssh.ServerConn` handle: its peer address, its user and whether
`Close()` has been called on it. -/
structure SSHConnection where
  RemoteAddr : GoString
  User : GoString
  transportClosed : Bool
  Listeners : List (GoString × Nat)
  Close : CloseSignal
  Messages : MessageQueue
  ProxyProto : Byte
  Session : CloseSignal
  CleanupHandler : Bool
deriving DecidableEq, Repr

/-- A send on `Messages` can proceed. -/
def MessageQueue.hasSpace (q : MessageQueue) : Bool := decide (q.buf.length < q.cap)

/-- The send `s.Messages <- message` once it proceeds. -/
def enqueue (s : SSHConnection) (message : GoString) : SSHConnection :=
  { s with Messages := { s.Messages with buf := s.Messages.buf ++ [message] } }

/-- What surrounds a call of `SendMessage`: `interfere k` is what the other
goroutines do to the session while the caller is suspended for the `k`-th time
(a receiver draining the queue, another sender filling it, `CleanUp` closing
the signal); `pickClose k` is the pseudo-random choice `select` makes on the
`k`-th attempt when both of its cases are ready (`true`: the receive from
`Close`). -/
structure Surroundings where
  interfere : Nat → SSHConnection → SSHConnection
  pickClose : Nat → Bool

/-- How a call of `SendMessage` ended. The Go function returns no value; this
records which `return` was taken. -/
inductive Exit where
  | closeSeen
  | delivered
  | gaveUp
deriving DecidableEq, Repr

/-- The effect of a call of `SendMessage` that has returned: the session, the
number of times a send was attempted, the total time slept in milliseconds and
the `return` taken. -/
structure Sent where
  conn : SSHConnection
  attempts : Nat
  sleptMs : Nat
  exit : Exit
deriving DecidableEq, Repr

/-- The session as the `k`-th attempt or wait of a call finds it when nothing
was sent before: the initial session after the interference of the first `k`
suspensions. -/
def observed (w : Surroundings) (s : SSHConnection) : Nat → SSHConnection
  | 0 => s
  | k + 1 => w.interfere k (observed w s k)

/-- The loop `for i := 0; i < 5; { select { ... } }` of `SendMessage`, entered
with counter `i` after `sleptMs` milliseconds of sleep; `left` is `5 - i`, the
number of iterations the loop condition still admits. -/
def sendLoop (w : Surroundings) (message : GoString) :
    (left : Nat) → (i : Nat) → SSHConnection → (sleptMs : Nat) → Sent
  | 0, i, s, sleptMs => { conn := s, attempts := i, sleptMs := sleptMs, exit := Exit.gaveUp }
  | left + 1, i, s, sleptMs =>
      if s.Close.closed && s.Messages.hasSpace then
        if w.pickClose i then
          { conn := s, attempts := i + 1, sleptMs := sleptMs, exit := Exit.closeSeen }
        else
          { conn := enqueue s message, attempts := i + 1, sleptMs := sleptMs,
            exit := Exit.delivered }
      else if s.Close.closed then
        { conn := s, attempts := i + 1, sleptMs := sleptMs, exit := Exit.closeSeen }
      else if s.Messages.hasSpace then
        { conn := enqueue s message, attempts := i + 1, sleptMs := sleptMs,
          exit := Exit.delivered }
      else
        sendLoop w message left (i + 1) (w.interfere i s) (sleptMs + 100)

/-- The statement `s.Messages <- message` of the blocking branch: the send
proceeds when the queue has space; otherwise the caller stays suspended while
the other goroutines run and tries again. `fuel` bounds the number of
suspensions looked at, `k` counts them; `none` means the caller is still
suspended when the fuel runs out. -/
def blockingSend (w : Surroundings) (message : GoString) :
    (fuel : Nat) → (k : Nat) → SSHConnection → Option Sent
  | 0, _, _ => none
  | fuel + 1, k, s =>
      if s.Messages.hasSpace then
        some { conn := enqueue s message, attempts := 1, sleptMs := 0, exit := Exit.delivered }
      else
        blockingSend w message fuel (k + 1) (w.interfere k s)

/-- The method `SSHConnection.SendMessage`. -/
def SendMessage (w : Surroundings) (fuel : Nat) (s : SSHConnection) (message : GoString)
    (block : Bool) : Option Sent :=
  if block then
    blockingSend w message fuel 0 s
  else
    some (sendLoop w message 5 0 s 0)

/-- A Go run-time panic. -/
inductive Panic where
  | closeOfClosedChannel
deriving DecidableEq, Repr

/-- The built-in `close(ch)`: closing a channel that is already closed panics. -/
def closeChan (c : CloseSignal) : Except Panic CloseSignal :=
  if c.closed then Except.error Panic.closeOfClosedChannel else Except.ok { closed := true }

/-- The line `CleanUp` logs. -/
structure CleanUpLog where
  remote : GoString
  user : GoString
deriving DecidableEq, Repr

/-- The method `SSHConnection.CleanUp`: close the signal, close the transport
(its error is discarded), delete the session from `state.SSHConnections`, log.
The result is the session and Global State afterwards with the line logged,
or the panic that ended the call. -/
def CleanUp (s : SSHConnection) (state : State) :
    Except Panic (SSHConnection × State × CleanUpLog) :=
  match closeChan s.Close with
  | Except.error p => Except.error p
  | Except.ok c =>
      let s1 : SSHConnection := { s with Close := c, transportClosed := true }
      let state1 : State :=
        { state with SSHConnections := SyncMap.Delete state.SSHConnections s.RemoteAddr }
      Except.ok (s1, state1, { remote := s.RemoteAddr, user := s.User })

/-- A session just accepted: open signal, empty queue of capacity `cap`. -/
def freshConn (cap : Nat) : SSHConnection :=
  { RemoteAddr := ascii "203.0.113.9:51000", User := ascii "alice", transportClosed := false
    Listeners := [], Close := ⟨false⟩, Messages := ⟨[], cap⟩, ProxyProto := 0
    Session := ⟨false⟩, CleanupHandler := false }

/-- A session whose queue of capacity one already holds a line, with the close
signal as given. -/
def fullConn (closed : Bool) : SSHConnection :=
  { freshConn 1 with Close := ⟨closed⟩, Messages := ⟨[ascii "first line"], 1⟩ }

/-- Surroundings in which no other goroutine touches the session. -/
def quiet : Surroundings := { interfere := fun _ x => x, pickClose := fun _ => true }

/-- Surroundings in which a receiver takes the oldest line off the queue during
the third suspension and nothing else happens. -/
def drainThird : Surroundings :=
  { interfere := fun k x =>
      if k = 2 then { x with Messages := { x.Messages with buf := x.Messages.buf.tail } } else x
    pickClose := fun _ => true }

/-! ## utils/conn.go: the relay -/

/-- The two parameters of `CopyBoth`: `writer` (a `net.Conn`, the public
endpoint, the one the idle-timeout wrapper is put around) and `reader` (an
`io.ReadWriteCloser`, the tunnel endpoint). -/
inductive Endpoint where
  | writer
  | reader
deriving DecidableEq, Repr

/-- A stream handed to `io.Copy`: an endpoint itself, or `IdleTimeoutConn`
around it. -/
inductive Stream where
  | plain (e : Endpoint)
  | idleTimeout (e : Endpoint)
deriving DecidableEq, Repr

/-- The endpoint a stream reads from and writes to. -/
def Stream.endpoint : Stream → Endpoint
  | Stream.plain e => e
  | Stream.idleTimeout e => e

/-- The configuration keys `CopyBoth` reads through viper. -/
structure Viper where
  idleConnection : Bool
  debug : Bool
deriving DecidableEq, Repr

/-- What a copy loop does, in order. -/
inductive RelayEvent where
  | copy (dst src : Stream)
  | logError (text : String) (err : GoError)
  | close (e : Endpoint)
deriving DecidableEq, Repr

/-- The closure `closeBoth`. -/
def closeBoth : List RelayEvent := [RelayEvent.close Endpoint.reader, RelayEvent.close Endpoint.writer]

/-- The variable `tcon`. -/
def tcon (v : Viper) : Stream :=
  if v.idleConnection then Stream.idleTimeout Endpoint.writer else Stream.plain Endpoint.writer

/-- The closure `copyToReader`; `ioCopy dst src` is the error `io.Copy(dst, src)`
ends with (`none` at end of stream). -/
def copyToReader (v : Viper) (ioCopy : Stream → Stream → Option GoError) : List RelayEvent :=
  [RelayEvent.copy (Stream.plain Endpoint.reader) (tcon v)] ++
    (match ioCopy (Stream.plain Endpoint.reader) (tcon v) with
      | some err => if v.debug then [RelayEvent.logError "Error copying to reader:" err] else []
      | none => []) ++
    closeBoth

/-- The closure `copyToWriter`. -/
def copyToWriter (v : Viper) (ioCopy : Stream → Stream → Option GoError) : List RelayEvent :=
  [RelayEvent.copy (tcon v) (Stream.plain Endpoint.reader)] ++
    (match ioCopy (tcon v) (Stream.plain Endpoint.reader) with
      | some err => if v.debug then [RelayEvent.logError "Error copying to writer:" err] else []
      | none => []) ++
    closeBoth

/-- The two tasks of a relay: `spawned` is what the goroutine started by the
`go` statement does, `foreground` is what the caller itself does before
`CopyBoth` returns. `CopyBoth` has no result value. -/
structure Relay where
  spawned : List RelayEvent
  foreground : List RelayEvent
deriving DecidableEq, Repr

/-- The function `CopyBoth`: `go copyToReader()` then `copyToWriter()`. -/
def CopyBoth (v : Viper) (ioCopy : Stream → Stream → Option GoError) : Relay :=
  { spawned := copyToReader v ioCopy, foreground := copyToWriter v ioCopy }

/-- The endpoint a copy loop reads from: the source of its `io.Copy`. -/
def readsFrom : List RelayEvent → Option Endpoint
  | RelayEvent.copy _ src :: _ => some src.endpoint
  | _ => none

/-- The endpoint a copy loop writes to: the destination of its `io.Copy`. -/
def writesTo : List RelayEvent → Option Endpoint
  | RelayEvent.copy dst _ :: _ => some dst.endpoint
  | _ => none

/-! ## Properties -/

theorem decChar_encChar (n : Nat) (h : n < 64) : decChar (encChar n) = some n := by
  have key : ∀ i : Fin 64, decChar (encChar i.val) = some i.val := by decide
  exact key ⟨n, h⟩

theorem encChar_props (n : Nat) (h : n < 64) :
    encChar n ≠ padChar ∧ encChar n ≠ 13 ∧ encChar n ≠ 10 := by
  have key : ∀ i : Fin 64, encChar i.val ≠ padChar ∧ encChar i.val ≠ 13 ∧ encChar i.val ≠ 10 := by
    decide
  exact key ⟨n, h⟩

theorem decChar_padChar : decChar padChar = none := by decide

theorem toByte_val (a : Byte) (n : Nat) (h : n % 256 = a.val) : toByte n = a := by
  apply Fin.ext
  simp [toByte, Fin.ofNat, h]

/-- No character produced by the encoder is a line break. -/
theorem filter_EncodeToString (src : List Byte) :
    (EncodeToString src).filter (fun c => c != 13 && c != 10) = EncodeToString src := by
  rw [List.filter_eq_self]
  induction src using EncodeToString.induct with
  | case1 => simp [EncodeToString]
  | case2 a =>
      intro c hc
      simp only [EncodeToString, List.mem_cons, List.mem_singleton, List.not_mem_nil, or_false] at hc
      have h0 := encChar_props (a.val * 65536 / 262144 % 64) (Nat.mod_lt _ (by decide))
      have h1 := encChar_props (a.val * 65536 / 4096 % 64) (Nat.mod_lt _ (by decide))
      rcases hc with rfl | rfl | rfl | rfl <;> first | (simp [*]; done) | decide
  | case3 a b =>
      intro c hc
      simp only [EncodeToString, List.mem_cons, List.mem_singleton, List.not_mem_nil, or_false] at hc
      have h0 := encChar_props ((a.val * 65536 + b.val * 256) / 262144 % 64) (Nat.mod_lt _ (by decide))
      have h1 := encChar_props ((a.val * 65536 + b.val * 256) / 4096 % 64) (Nat.mod_lt _ (by decide))
      have h2 := encChar_props ((a.val * 65536 + b.val * 256) / 64 % 64) (Nat.mod_lt _ (by decide))
      rcases hc with rfl | rfl | rfl | rfl <;> first | (simp [*]; done) | decide
  | case4 a b c rest ih =>
      intro x hx
      simp only [EncodeToString, List.mem_cons] at hx
      have h0 := encChar_props ((a.val * 65536 + b.val * 256 + c.val) / 262144 % 64) (Nat.mod_lt _ (by decide))
      have h1 := encChar_props ((a.val * 65536 + b.val * 256 + c.val) / 4096 % 64) (Nat.mod_lt _ (by decide))
      have h2 := encChar_props ((a.val * 65536 + b.val * 256 + c.val) / 64 % 64) (Nat.mod_lt _ (by decide))
      have h3 := encChar_props ((a.val * 65536 + b.val * 256 + c.val) % 64) (Nat.mod_lt _ (by decide))
      rcases hx with rfl | rfl | rfl | rfl | hx
      · simp [*]
      · simp [*]
      · simp [*]
      · simp [*]
      · exact ih x hx

theorem decodeQuanta_EncodeToString (src : List Byte) :
    decodeQuanta (EncodeToString src) = some src := by
  induction src using EncodeToString.induct with
  | case1 => simp [EncodeToString, decodeQuanta]
  | case2 a =>
      have ha := a.isLt
      simp only [EncodeToString, decodeQuanta]
      rw [decChar_encChar _ (Nat.mod_lt _ (by decide)), decChar_encChar _ (Nat.mod_lt _ (by decide)),
        decChar_padChar]
      simp only [and_self, if_true]
      congr 1
      congr 1
      apply toByte_val
      omega
  | case3 a b =>
      have ha := a.isLt
      have hb := b.isLt
      simp only [EncodeToString, decodeQuanta]
      rw [decChar_encChar _ (Nat.mod_lt _ (by decide)), decChar_encChar _ (Nat.mod_lt _ (by decide)),
        decChar_encChar _ (Nat.mod_lt _ (by decide)), decChar_padChar]
      simp only [and_self, if_true]
      congr 1
      congr 1
      · apply toByte_val
        omega
      · congr 1
        apply toByte_val
        omega
  | case4 a b c rest ih =>
      have ha := a.isLt
      have hb := b.isLt
      have hc := c.isLt
      simp only [EncodeToString, decodeQuanta]
      rw [decChar_encChar _ (Nat.mod_lt _ (by decide)), decChar_encChar _ (Nat.mod_lt _ (by decide)),
        decChar_encChar _ (Nat.mod_lt _ (by decide)), decChar_encChar _ (Nat.mod_lt _ (by decide))]
      simp only [ih]
      congr 1
      congr 1
      · apply toByte_val
        omega
      · congr 1
        · apply toByte_val
          omega
        · congr 1
          apply toByte_val
          omega

/-- Decoding inverts encoding. -/
theorem DecodeString_EncodeToString (src : List Byte) :
    DecodeString (EncodeToString src) = some src := by
  unfold DecodeString
  rw [filter_EncodeToString, decodeQuanta_EncodeToString]

theorem EncodeToString_injective (a b : List Byte) (h : EncodeToString a = EncodeToString b) :
    a = b := by
  have h1 := DecodeString_EncodeToString a
  rw [h, DecodeString_EncodeToString] at h1
  exact (Option.some.inj h1).symm

/-! ### sync.Map and the heap -/

theorem SyncMap.Load_Store {κ ν : Type} [DecidableEq κ] (m : List (κ × ν)) (k : κ) (v : ν) :
    SyncMap.Load (SyncMap.Store m k v) k = some v := by
  induction m with
  | nil => simp [SyncMap.Store, SyncMap.Load]
  | cons e m ih =>
      obtain ⟨k0, v0⟩ := e
      by_cases h : k0 = k
      · simp [SyncMap.Store, SyncMap.Load, h]
      · simp only [SyncMap.Store, h, if_false]
        simp only [SyncMap.Load, List.find?_cons, h, decide_False] at ih ⊢
        exact ih

theorem registerBackend_holder (env : Env) (msgs : GoString) (lh : ListenerHolder) (st : State)
    (sess : SessionPtr) (a : GoString) (p : HolderPtr) (h : AliasHolder)
    (hp : st.heap[p]? = some h) :
    (registerBackend env msgs lh st sess a p).state.heap[p]? =
      some { h with SSHConns := SyncMap.Store h.SSHConns lh.Addr sess
                    Balancer := ⟨h.Balancer.upserts ++ [encodedURL lh.Addr]⟩ } := by
  simp [registerBackend, storeConn, upsert, hp]

/-! ### Claims about `handleAliasListener` -/

/-- C1. Atomic failure: when the alias lookup finds no holder and
`roundrobin.New` fails with error `e`, `handleAliasListener` returns a nil
holder, a nil URL, an empty alias, an empty notice text and the error `e`, and
Global State (registry and every backend map) is exactly what it was, so the
lookup still finds no holder for that alias. -/
theorem handleAliasListener_atomic_failure (env : Env) (check : channelForwardMsg)
    (stringPort requestMessages : GoString) (listenerHolder : ListenerHolder) (state : State)
    (sshConn : SessionPtr) (A : GoString) (e : GoError)
    (hLookup : env.GetOpenAlias check.Addr stringPort state sshConn = (A, none))
    (hNew : env.roundrobinNew = some e) :
    (handleAliasListener env check stringPort requestMessages listenerHolder state sshConn).aH
        = none ∧
    (handleAliasListener env check stringPort requestMessages listenerHolder state sshConn).serverURL
        = none ∧
    (handleAliasListener env check stringPort requestMessages listenerHolder state sshConn).validAlias
        = [] ∧
    (handleAliasListener env check stringPort requestMessages listenerHolder state
        sshConn).requestMessages = [] ∧
    (handleAliasListener env check stringPort requestMessages listenerHolder state sshConn).err
        = some e ∧
    (handleAliasListener env check stringPort requestMessages listenerHolder state sshConn).state
        = state ∧
    env.GetOpenAlias check.Addr stringPort
        (handleAliasListener env check stringPort requestMessages listenerHolder state
          sshConn).state sshConn = (A, none) := by
  simp [handleAliasListener, hLookup, hNew]

/-- Witness for C1: alias `bad.test:80`, first registration, construction fails. -/
theorem handleAliasListener_atomic_failure_witness :
    (handleAliasListener failNewEnv ⟨ascii "bad.test", 80⟩ (ascii "80") (ascii "hello\r\n")
        ⟨ascii "127.0.0.1:40001"⟩ emptyState 1).err = some ⟨"balancer construction failed"⟩ ∧
    (handleAliasListener failNewEnv ⟨ascii "bad.test", 80⟩ (ascii "80") (ascii "hello\r\n")
        ⟨ascii "127.0.0.1:40001"⟩ emptyState 1).state = emptyState :=
  have h := handleAliasListener_atomic_failure failNewEnv ⟨ascii "bad.test", 80⟩ (ascii "80")
    (ascii "hello\r\n") ⟨ascii "127.0.0.1:40001"⟩ emptyState 1 (ascii "bad.test:80")
    ⟨"balancer construction failed"⟩ (by decide) rfl
  ⟨h.2.2.2.2.1, h.2.2.2.2.2.1⟩

/-- C7. Encoded backend address: a URL returned by `handleAliasListener` has
empty scheme and path, its `Host` is the standard base64 encoding of the
listener address, decoding that `Host` gives the listener address back, and
calls for different listener addresses return different URLs. -/
theorem handleAliasListener_url_round_trip (env : Env) (check : channelForwardMsg)
    (stringPort requestMessages : GoString) (listenerHolder : ListenerHolder) (state : State)
    (sshConn : SessionPtr) (u : URL)
    (hu : (handleAliasListener env check stringPort requestMessages listenerHolder state
      sshConn).serverURL = some u) :
    (u.Scheme = [] ∧ u.Path = [] ∧ u.Host = EncodeToString listenerHolder.Addr ∧
      DecodeString u.Host = some listenerHolder.Addr) ∧
    ∀ (env2 : Env) (check2 : channelForwardMsg) (stringPort2 requestMessages2 : GoString)
      (listenerHolder2 : ListenerHolder) (state2 : State) (sshConn2 : SessionPtr) (u2 : URL),
      (handleAliasListener env2 check2 stringPort2 requestMessages2 listenerHolder2 state2
        sshConn2).serverURL = some u2 →
      listenerHolder2.Addr ≠ listenerHolder.Addr → u2 ≠ u := by
  have key : ∀ (env : Env) (check : channelForwardMsg) (stringPort requestMessages : GoString)
      (listenerHolder : ListenerHolder) (state : State) (sshConn : SessionPtr) (u : URL),
      (handleAliasListener env check stringPort requestMessages listenerHolder state
        sshConn).serverURL = some u → u = encodedURL listenerHolder.Addr := by
    intro env check stringPort requestMessages listenerHolder state sshConn u hu
    unfold handleAliasListener at hu
    split at hu
    · split at hu
      · simp at hu
      · simp only [registerBackend, Option.some.injEq] at hu
        exact hu.symm
    · simp only [registerBackend, Option.some.injEq] at hu
      exact hu.symm
  have h1 := key _ _ _ _ _ _ _ _ hu
  subst h1
  refine ⟨⟨rfl, rfl, rfl, DecodeString_EncodeToString _⟩, ?_⟩
  intro env2 check2 stringPort2 requestMessages2 listenerHolder2 state2 sshConn2 u2 hu2 hne heq
  have h2 := key _ _ _ _ _ _ _ _ hu2
  subst h2
  apply hne
  apply EncodeToString_injective
  exact congrArg URL.Host heq

/-- Witness for C7: an IPv6 listener address, which is not a valid host name. -/
theorem handleAliasListener_url_round_trip_witness :
    DecodeString (EncodeToString (ascii "[::1]:8080")) = some (ascii "[::1]:8080") :=
  (handleAliasListener_url_round_trip okEnv ⟨ascii "example.test", 80⟩ (ascii "80") []
    ⟨ascii "[::1]:8080"⟩ emptyState 1 (encodedURL (ascii "[::1]:8080")) (by decide)).1.2.2.2

/-- C8. A rejected upsert is not fatal: when the call gets past balancer
construction (or reuses a holder that is allocated), then whatever
`UpsertServer` answers, and so also when it rejects the encoded URL, the call
returns a nil error with the same holder, URL, alias and notice text as the
call in which the upsert is accepted, and the backend map of the returned
holder maps the listener address to the session; a rejection is logged. The
notice text returned is the text passed in followed by the status line, byte
for byte: the rendering of the tag `TCP Alias` (bytes 84 67 80 32 65 108 105
97 115), a colon and a space (58 32), the alias, and `\r\n` (13 10). -/
theorem handleAliasListener_upsert_failure_not_fatal (env : Env) (check : channelForwardMsg)
    (stringPort requestMessages : GoString) (listenerHolder : ListenerHolder) (state : State)
    (sshConn : SessionPtr)
    (hPass : (env.GetOpenAlias check.Addr stringPort state sshConn).2 = none →
      env.roundrobinNew = none)
    (hAlloc : ∀ p, (env.GetOpenAlias check.Addr stringPort state sshConn).2 = some p →
      p < state.heap.length) :
    (handleAliasListener env check stringPort requestMessages listenerHolder state sshConn).err
        = none ∧
    (handleAliasListener env check stringPort requestMessages listenerHolder state sshConn).aH =
      (handleAliasListener { env with UpsertServer := fun _ _ => none } check stringPort
        requestMessages listenerHolder state sshConn).aH ∧
    (handleAliasListener env check stringPort requestMessages listenerHolder state sshConn).serverURL
      = (handleAliasListener { env with UpsertServer := fun _ _ => none } check stringPort
        requestMessages listenerHolder state sshConn).serverURL ∧
    (handleAliasListener env check stringPort requestMessages listenerHolder state sshConn).validAlias
      = (handleAliasListener { env with UpsertServer := fun _ _ => none } check stringPort
        requestMessages listenerHolder state sshConn).validAlias ∧
    (handleAliasListener env check stringPort requestMessages listenerHolder state
        sshConn).requestMessages
      = (handleAliasListener { env with UpsertServer := fun _ _ => none } check stringPort
        requestMessages listenerHolder state sshConn).requestMessages ∧
    (handleAliasListener env check stringPort requestMessages listenerHolder state sshConn).serverURL
      = some (encodedURL listenerHolder.Addr) ∧
    (handleAliasListener env check stringPort requestMessages listenerHolder state sshConn).validAlias
      = (env.GetOpenAlias check.Addr stringPort state sshConn).1 ∧
    (handleAliasListener env check stringPort requestMessages listenerHolder state
        sshConn).requestMessages
      = requestMessages ++
          (env.BgBlue [84, 67, 80, 32, 65, 108, 105, 97, 115] ++ [58, 32] ++
            (env.GetOpenAlias check.Addr stringPort state sshConn).1 ++ [13, 10]) ∧
    ((∀ b, (env.UpsertServer b (encodedURL listenerHolder.Addr)).isSome = true) →
      LogLine.upsertFailed ∈
        (handleAliasListener env check stringPort requestMessages listenerHolder state
          sshConn).logs) ∧
    ∃ p h,
      (handleAliasListener env check stringPort requestMessages listenerHolder state sshConn).aH
        = some p ∧
      (handleAliasListener env check stringPort requestMessages listenerHolder state
        sshConn).state.heap[p]? = some h ∧
      SyncMap.Load h.SSHConns listenerHolder.Addr = some sshConn := by
  have htag : ascii "TCP Alias" = [84, 67, 80, 32, 65, 108, 105, 97, 115] := by decide
  have hline : ∀ (m tag a : GoString),
      m ++ statusLine tag a = m ++ (tag ++ [58, 32] ++ a ++ [13, 10]) := fun _ _ _ => rfl
  rcases hg : env.GetOpenAlias check.Addr stringPort state sshConn with ⟨a, _ | p⟩
  · have hn := hPass (by rw [hg])
    have hlen : (state.heap ++ [newHolder a])[state.heap.length]? = some (newHolder a) := by
      simp
    simp only [handleAliasListener, hg, hn]
    refine ⟨rfl, rfl, rfl, rfl, rfl, rfl, rfl, ?_, ?_, ?_⟩
    · simp only [registerBackend, htag, hline]
    · intro hReject
      simp [registerBackend, hReject]
    · refine ⟨state.heap.length, _, rfl, registerBackend_holder _ _ _ _ _ _ _ _ hlen, ?_⟩
      exact SyncMap.Load_Store _ _ _
  · have hp := hAlloc p (by rw [hg])
    obtain ⟨h, hh⟩ : ∃ h, state.heap[p]? = some h := ⟨state.heap[p], by simp [hp]⟩
    simp only [handleAliasListener, hg]
    refine ⟨rfl, rfl, rfl, rfl, rfl, rfl, rfl, ?_, ?_, ?_⟩
    · simp only [registerBackend, htag, hline]
    · intro hReject
      simp [registerBackend, hReject]
    · refine ⟨p, _, rfl, registerBackend_holder _ _ _ _ _ _ _ _ hh, ?_⟩
      exact SyncMap.Load_Store _ _ _

/-- Witness for C8: first registration of `example.test:80` against a balancer
that rejects every URL. -/
theorem handleAliasListener_upsert_failure_not_fatal_witness :
    (handleAliasListener rejectEnv ⟨ascii "example.test", 80⟩ (ascii "80") []
        ⟨ascii "127.0.0.1:40001"⟩ emptyState 1).err = none ∧
    (handleAliasListener rejectEnv ⟨ascii "example.test", 80⟩ (ascii "80") []
        ⟨ascii "127.0.0.1:40001"⟩ emptyState 1).requestMessages =
      [84, 67, 80, 32, 65, 108, 105, 97, 115, 58, 32,
       101, 120, 97, 109, 112, 108, 101, 46, 116, 101, 115, 116, 58, 56, 48, 13, 10] ∧
    LogLine.upsertFailed ∈
      (handleAliasListener rejectEnv ⟨ascii "example.test", 80⟩ (ascii "80") []
        ⟨ascii "127.0.0.1:40001"⟩ emptyState 1).logs :=
  have h := handleAliasListener_upsert_failure_not_fatal rejectEnv ⟨ascii "example.test", 80⟩
    (ascii "80") [] ⟨ascii "127.0.0.1:40001"⟩ emptyState 1 (fun _ => rfl)
    (by decide)
  ⟨h.1, h.2.2.2.2.2.2.2.1, h.2.2.2.2.2.2.2.2.1 (fun _ => rfl)⟩

/-! ### Registration in sequence -/

theorem SyncMap.Store_fresh {κ ν : Type} [DecidableEq κ] (m : List (κ × ν)) (k : κ) (v : ν)
    (h : k ∉ m.map Prod.fst) : SyncMap.Store m k v = m ++ [(k, v)] := by
  induction m with
  | nil => rfl
  | cons e m ih =>
      obtain ⟨k0, v0⟩ := e
      simp only [List.map_cons, List.mem_cons, not_or] at h
      have hne : ¬ k0 = k := fun hk => h.1 hk.symm
      simp [SyncMap.Store, hne, ih h.2]

theorem SyncMap.Load_map_of_nodup {α κ ν : Type} [DecidableEq κ] (key : α → κ) (val : α → ν)
    (l : List α) (hnd : (l.map key).Nodup) (c : α) (hc : c ∈ l) :
    SyncMap.Load (l.map (fun x => (key x, val x))) (key c) = some (val c) := by
  induction l with
  | nil => simp at hc
  | cons x l ih =>
      simp only [List.map_cons, List.nodup_cons] at hnd
      rcases List.mem_cons.mp hc with rfl | hc
      · simp [SyncMap.Load]
      · have hne : ¬ key x = key c := by
          intro heq
          exact hnd.1 (heq ▸ List.mem_map_of_mem key hc)
        have := ih hnd.2 hc
        simp only [SyncMap.Load, List.map_cons, List.find?_cons, hne, decide_False] at this ⊢
        exact this

theorem modify_last {α : Type} (f : α → α) (pre : List α) (h : α) :
    List.modify f pre.length (pre ++ [h]) = pre ++ [f h] := by
  induction pre with
  | nil => rfl
  | cons a pre ih => simpa [List.modify_succ_cons] using ih

theorem encodedURL_injective : Function.Injective encodedURL := by
  intro a b h
  exact EncodeToString_injective a b (congrArg URL.Host h)

/-- A call that finds the holder at the end of the heap adds one backend to it
and changes nothing else. -/
theorem handleAliasListener_existing (env : Env) (check : channelForwardMsg)
    (stringPort requestMessages : GoString) (l : ListenerHolder) (st : State) (s : SessionPtr)
    (A : GoString) (pre : List AliasHolder) (h : AliasHolder)
    (hGet : env.GetOpenAlias check.Addr stringPort st s = (A, some pre.length))
    (hHeap : st.heap = pre ++ [h]) :
    (handleAliasListener env check stringPort requestMessages l st s).aH = some pre.length ∧
    (handleAliasListener env check stringPort requestMessages l st s).err = none ∧
    (handleAliasListener env check stringPort requestMessages l st s).state =
      { st with heap := pre ++ [{ h with
          SSHConns := SyncMap.Store h.SSHConns l.Addr s
          Balancer := ⟨h.Balancer.upserts ++ [encodedURL l.Addr]⟩ }] } := by
  simp only [handleAliasListener, hGet]
  refine ⟨rfl, rfl, ?_⟩
  simp only [registerBackend, upsert, storeConn, hHeap, modify_last]

/-- Calls in sequence that all find the holder at the end of the heap append
their backends to it in order. -/
theorem runCalls_existing (env : Env) (check : channelForwardMsg)
    (stringPort requestMessages : GoString) (A : GoString)
    (hGet : ∀ st s, env.GetOpenAlias check.Addr stringPort st s
      = (A, SyncMap.Load st.AliasListeners A))
    (pre : List AliasHolder) (calls : List (ListenerHolder × SessionPtr)) :
    ∀ (st : State) (h : AliasHolder),
      st.heap = pre ++ [h] →
      SyncMap.Load st.AliasListeners A = some pre.length →
      (calls.map (fun c => c.1.Addr)).Nodup →
      (∀ c ∈ calls, c.1.Addr ∉ h.SSHConns.map Prod.fst) →
      (runCalls env check stringPort requestMessages calls st).2 =
        { st with heap := pre ++ [{ h with
            SSHConns := h.SSHConns ++ calls.map (fun c => (c.1.Addr, c.2))
            Balancer := ⟨h.Balancer.upserts ++ calls.map (fun c => encodedURL c.1.Addr)⟩ }] } ∧
      ∀ o ∈ (runCalls env check stringPort requestMessages calls st).1,
        o.aH = some pre.length ∧ o.err = none := by
  induction calls with
  | nil =>
      intro st h hHeap _ _ _
      simp [runCalls, ← hHeap]
  | cons c calls ih =>
      intro st h hHeap hLoad hnd hfresh
      obtain ⟨l, s⟩ := c
      simp only [List.map_cons, List.nodup_cons] at hnd
      have hg : env.GetOpenAlias check.Addr stringPort st s = (A, some pre.length) := by
        rw [hGet, hLoad]
      obtain ⟨h1, h2, h3⟩ :=
        handleAliasListener_existing env check stringPort requestMessages l st s A pre h hg hHeap
      have hst : SyncMap.Store h.SSHConns l.Addr s = h.SSHConns ++ [(l.Addr, s)] :=
        SyncMap.Store_fresh _ _ _ (hfresh (l, s) (List.mem_cons_self _ _))
      rw [hst] at h3
      have hfresh2 : ∀ c ∈ calls, c.1.Addr ∉
          (h.SSHConns ++ [(l.Addr, s)]).map Prod.fst := by
        intro c hc hmem
        simp only [List.map_append, List.map_cons, List.map_nil, List.mem_append,
          List.mem_singleton] at hmem
        rcases hmem with hmem | hmem
        · exact hfresh c (List.mem_cons_of_mem _ hc) hmem
        · exact hnd.1 (hmem ▸ List.mem_map_of_mem (fun c => c.1.Addr) hc)
      have ih2 := ih (handleAliasListener env check stringPort requestMessages l st s).state
        { h with SSHConns := h.SSHConns ++ [(l.Addr, s)]
                 Balancer := ⟨h.Balancer.upserts ++ [encodedURL l.Addr]⟩ }
        (by rw [h3]) (by rw [h3]; exact hLoad) hnd.2 hfresh2
      simp only [runCalls]
      refine ⟨?_, ?_⟩
      · rw [ih2.1, h3]
        simp
      · intro o ho
        rcases List.mem_cons.mp ho with rfl | ho
        · exact ⟨h1, h2⟩
        · exact ih2.2 o ho

/-- C2. Sequential idempotent registration: from a Global State with no holder
for alias `A`, with a lookup that returns the holder stored under `A` and a
balancer construction that succeeds, `N >= 1` calls in sequence with pairwise
distinct listener addresses construct exactly one holder (the heap grows by
one), every call returns that holder with a nil error, Global State maps `A` to
it, its backend map has exactly `N` entries and maps each listener address to
the session of its call, and its balancer received `N` upserts with pairwise
distinct encoded URLs. -/
theorem runCalls_idempotent_registration (env : Env) (check : channelForwardMsg)
    (stringPort requestMessages : GoString) (A : GoString)
    (calls : List (ListenerHolder × SessionPtr)) (st0 : State)
    (hGet : ∀ st s, env.GetOpenAlias check.Addr stringPort st s
      = (A, SyncMap.Load st.AliasListeners A))
    (hNew : env.roundrobinNew = none)
    (hAbsent : SyncMap.Load st0.AliasListeners A = none)
    (hN : 1 ≤ calls.length)
    (hDistinct : (calls.map (fun c => c.1.Addr)).Nodup) :
    ∃ h : AliasHolder,
      (runCalls env check stringPort requestMessages calls st0).2.heap = st0.heap ++ [h] ∧
      (∀ o ∈ (runCalls env check stringPort requestMessages calls st0).1,
        o.aH = some st0.heap.length ∧ o.err = none) ∧
      (runCalls env check stringPort requestMessages calls st0).1.length = calls.length ∧
      SyncMap.Load (runCalls env check stringPort requestMessages calls st0).2.AliasListeners A
        = some st0.heap.length ∧
      (runCalls env check stringPort requestMessages calls st0).2.heap[st0.heap.length]?
        = some h ∧
      h.AliasHost = A ∧
      h.SSHConns.length = calls.length ∧
      (∀ c ∈ calls, SyncMap.Load h.SSHConns c.1.Addr = some c.2) ∧
      h.Balancer.upserts = calls.map (fun c => encodedURL c.1.Addr) ∧
      h.Balancer.upserts.length = calls.length ∧
      h.Balancer.upserts.Nodup := by
  obtain _ | ⟨⟨l, s⟩, rest⟩ := calls
  · simp at hN
  · simp only [List.map_cons, List.nodup_cons] at hDistinct
    have hg : env.GetOpenAlias check.Addr stringPort st0 s = (A, none) := by
      rw [hGet, hAbsent]
    have hfirst : (handleAliasListener env check stringPort requestMessages l st0 s).state =
        { st0 with
          heap := st0.heap ++ [{ AliasHost := A, SSHConns := [(l.Addr, s)],
                                 Balancer := ⟨[encodedURL l.Addr]⟩ }]
          AliasListeners := SyncMap.Store st0.AliasListeners A st0.heap.length } := by
      simp only [handleAliasListener, hg, hNew]
      simp [registerBackend, upsert, storeConn, modify_last, newHolder, SyncMap.Store]
    have hout : (handleAliasListener env check stringPort requestMessages l st0 s).aH
          = some st0.heap.length ∧
        (handleAliasListener env check stringPort requestMessages l st0 s).err = none := by
      simp only [handleAliasListener, hg, hNew]
      exact ⟨rfl, rfl⟩
    have hfresh : ∀ c ∈ rest, c.1.Addr ∉
        (({ AliasHost := A, SSHConns := [(l.Addr, s)], Balancer := ⟨[encodedURL l.Addr]⟩ } :
          AliasHolder).SSHConns).map Prod.fst := by
      intro c hc hmem
      simp only [List.map_cons, List.map_nil, List.mem_singleton] at hmem
      exact hDistinct.1 (hmem ▸ List.mem_map_of_mem (fun c => c.1.Addr) hc)
    have hrun := runCalls_existing env check stringPort requestMessages A hGet st0.heap rest
      (handleAliasListener env check stringPort requestMessages l st0 s).state
      { AliasHost := A, SSHConns := [(l.Addr, s)], Balancer := ⟨[encodedURL l.Addr]⟩ }
      (by rw [hfirst]) (by rw [hfirst]; exact SyncMap.Load_Store _ _ _) hDistinct.2 hfresh
    have hlen : ∀ (cs : List (ListenerHolder × SessionPtr)) (st : State),
        (runCalls env check stringPort requestMessages cs st).1.length = cs.length := by
      intro cs
      induction cs with
      | nil => intro st; rfl
      | cons c cs ih => intro st; obtain ⟨l, s⟩ := c; simp [runCalls, ih]
    have hnd : (List.map (fun c : ListenerHolder × SessionPtr => c.1.Addr)
        ((l, s) :: rest)).Nodup := by
      simp only [List.map_cons, List.nodup_cons]
      exact hDistinct
    refine ⟨{ AliasHost := A
              SSHConns := [(l.Addr, s)] ++ rest.map (fun c => (c.1.Addr, c.2))
              Balancer := ⟨[encodedURL l.Addr] ++ rest.map (fun c => encodedURL c.1.Addr)⟩ },
      ?_, ?_, hlen _ _, ?_, ?_, rfl, ?_, ?_, ?_, ?_, ?_⟩
    · simp only [runCalls]
      rw [hrun.1, hfirst]
    · intro o ho
      simp only [runCalls] at ho
      rcases List.mem_cons.mp ho with rfl | ho
      · exact hout
      · exact hrun.2 o ho
    · simp only [runCalls]
      rw [hrun.1, hfirst]
      exact SyncMap.Load_Store _ _ _
    · simp only [runCalls]
      rw [hrun.1, hfirst]
      simp
    · simp
    · intro c hc
      exact SyncMap.Load_map_of_nodup (fun c : ListenerHolder × SessionPtr => c.1.Addr)
        (fun c => c.2) ((l, s) :: rest) hnd c hc
    · simp
    · simp
    · have := List.Nodup.map encodedURL_injective hnd
      simpa [List.map_map, Function.comp] using this

/-- Witness for C2: alias `example.test:80` registered by two sessions with
listener addresses `127.0.0.1:40001` and `127.0.0.1:40002`. -/
theorem runCalls_idempotent_registration_witness :
    ∃ h : AliasHolder,
      (runCalls okEnv ⟨ascii "example.test", 80⟩ (ascii "80") []
        [(⟨ascii "127.0.0.1:40001"⟩, 1), (⟨ascii "127.0.0.1:40002"⟩, 2)] emptyState).2.heap
        = [h] ∧
      h.SSHConns.length = 2 ∧ h.Balancer.upserts.length = 2 ∧ h.Balancer.upserts.Nodup :=
  have e : ascii "example.test" ++ [58] ++ ascii "80" = ascii "example.test:80" := by decide
  have h := runCalls_idempotent_registration okEnv ⟨ascii "example.test", 80⟩ (ascii "80") []
    (ascii "example.test:80")
    [(⟨ascii "127.0.0.1:40001"⟩, 1), (⟨ascii "127.0.0.1:40002"⟩, 2)] emptyState
    (fun st s => by
      show lookupAlias (ascii "example.test") (ascii "80") st s = _
      unfold lookupAlias
      rw [e])
    rfl rfl (by decide) (by decide)
  h.imp fun _ hh => ⟨hh.1, hh.2.2.2.2.2.2.1, hh.2.2.2.2.2.2.2.2.2.1, hh.2.2.2.2.2.2.2.2.2.2⟩

/-! ### Concurrent registration -/

/-- A call that runs its five steps with no other call in between does what
`handleAliasListener` does: the small-step reading of the function agrees with
the function. -/
theorem runSchedule_alone (env : Env) (c1 c2 : Call) (pc2 : Pc) (st : State) :
    runSchedule env c1 c2 [false, false, false, false, false]
        { first := Pc.atLookup, second := pc2, state := st } =
      { first := Pc.returned
          (handleAliasListener env c1.check c1.stringPort c1.requestMessages c1.listenerHolder
            st c1.sshConn).aH
          (handleAliasListener env c1.check c1.stringPort c1.requestMessages c1.listenerHolder
            st c1.sshConn).serverURL
          (handleAliasListener env c1.check c1.stringPort c1.requestMessages c1.listenerHolder
            st c1.sshConn).err
        second := pc2
        state := (handleAliasListener env c1.check c1.stringPort c1.requestMessages
          c1.listenerHolder st c1.sshConn).state } := by
  rcases hg : env.GetOpenAlias c1.check.Addr c1.stringPort st c1.sshConn with ⟨a, _ | p⟩
  · rcases hn : env.roundrobinNew with _ | e
    · simp [runSchedule, stepCall, handleAliasListener, hg, hn, registerBackend, storeConn, upsert]
    · simp [runSchedule, stepCall, handleAliasListener, hg, hn]
  · simp [runSchedule, stepCall, handleAliasListener, hg, registerBackend]

/-- C3. The get-or-create of `handleAliasListener` is not race-free. Two calls
register `127.0.0.1:40001` (session 1) and `127.0.0.1:40002` (session 2)
under the new alias `example.test:80`; both look the alias up before either
stores a holder. The first call returns holder 0, the second holder 1, Global
State ends up mapping the alias to holder 1, whose backend map holds only the
second backend: the first backend sits in a holder that is no longer
reachable. -/
theorem runSchedule_race_two_holders :
    (runSchedule okEnv
        ⟨⟨ascii "example.test", 80⟩, ascii "80", [], ⟨ascii "127.0.0.1:40001"⟩, 1⟩
        ⟨⟨ascii "example.test", 80⟩, ascii "80", [], ⟨ascii "127.0.0.1:40002"⟩, 2⟩
        [false, true, false, false, false, false, true, true, true, true]
        { first := Pc.atLookup, second := Pc.atLookup, state := emptyState }) =
      { first := Pc.returned (some 0) (some (encodedURL (ascii "127.0.0.1:40001"))) none
        second := Pc.returned (some 1) (some (encodedURL (ascii "127.0.0.1:40002"))) none
        state :=
          { heap :=
              [{ AliasHost := ascii "example.test:80"
                 SSHConns := [(ascii "127.0.0.1:40001", 1)]
                 Balancer := ⟨[encodedURL (ascii "127.0.0.1:40001")]⟩ },
               { AliasHost := ascii "example.test:80"
                 SSHConns := [(ascii "127.0.0.1:40002", 2)]
                 Balancer := ⟨[encodedURL (ascii "127.0.0.1:40002")]⟩ }]
            AliasListeners := [(ascii "example.test:80", 1)]
            SSHConnections := [] } } := by
  decide

/-! ### Claims about sessions -/

/-- C4. A second `CleanUp` panics: whenever a call of `CleanUp` returns, it
leaves the close signal closed, and calling `CleanUp` again on the session and
state it left ends in the run-time panic "close of closed channel" before the
transport or Global State is touched. -/
theorem CleanUp_twice_panics (s s1 : SSHConnection) (state state1 : State) (lg : CleanUpLog)
    (h : CleanUp s state = Except.ok (s1, state1, lg)) :
    s1.Close.closed = true ∧ CleanUp s1 state1 = Except.error Panic.closeOfClosedChannel := by
  unfold CleanUp at h
  by_cases hc : s.Close.closed = true
  · simp [closeChan, hc] at h
  · simp only [closeChan, hc, Bool.false_eq_true, if_false, Except.ok.injEq, Prod.mk.injEq] at h
    obtain ⟨rfl, -, -⟩ := h
    simp [CleanUp, closeChan]

/-- Witness for C4: a fresh session registered in Global State, cleaned up twice. -/
theorem CleanUp_twice_panics_witness :
    CleanUp (freshConn 4) { emptyState with SSHConnections := [(ascii "203.0.113.9:51000", 1)] }
      = Except.ok ({ freshConn 4 with Close := ⟨true⟩, transportClosed := true }, emptyState,
          ⟨ascii "203.0.113.9:51000", ascii "alice"⟩) ∧
    CleanUp { freshConn 4 with Close := ⟨true⟩, transportClosed := true } emptyState
      = Except.error Panic.closeOfClosedChannel :=
  have h : CleanUp (freshConn 4)
        { emptyState with SSHConnections := [(ascii "203.0.113.9:51000", 1)] }
      = Except.ok ({ freshConn 4 with Close := ⟨true⟩, transportClosed := true }, emptyState,
          ⟨ascii "203.0.113.9:51000", ascii "alice"⟩) := by rfl
  ⟨h, (CleanUp_twice_panics _ _ _ _ _ h).2⟩

theorem blockingSend_full (w : Surroundings) (s : SSHConnection) (message : GoString)
    (hFull : ∀ k, (observed w s k).Messages.hasSpace = false) :
    ∀ fuel k, blockingSend w message fuel k (observed w s k) = none := by
  intro fuel
  induction fuel with
  | zero => intro k; rfl
  | succ fuel ih =>
      intro k
      simp only [blockingSend, hFull k, Bool.false_eq_true, if_false]
      exact ih (k + 1)

/-- C5. A blocking `SendMessage` does not watch the close signal: if the queue
is full and stays full, the call with `block = true` is still suspended after
any number of rounds, whether or not the close signal has been closed; under
the same conditions the call with `block = false` returns on its first attempt
once the signal is closed. -/
theorem SendMessage_blocking_ignores_close (w : Surroundings) (s : SSHConnection)
    (message : GoString)
    (hFull : ∀ k, (observed w s k).Messages.hasSpace = false) :
    (∀ fuel, SendMessage w fuel s message true = none) ∧
    (s.Close.closed = true → ∀ fuel, SendMessage w fuel s message false =
      some { conn := s, attempts := 1, sleptMs := 0, exit := Exit.closeSeen }) := by
  constructor
  · intro fuel
    simp only [SendMessage, if_true]
    exact blockingSend_full w s message hFull fuel 0
  · intro hc fuel
    have h0 : s.Messages.hasSpace = false := hFull 0
    simp [SendMessage, sendLoop, hc, h0]

/-- Witness for C5: a full queue on a session whose close signal is closed. -/
theorem SendMessage_blocking_ignores_close_witness :
    (fullConn true).Close.closed = true ∧
    (∀ fuel, SendMessage quiet fuel (fullConn true) (ascii "bye") true = none) ∧
    SendMessage quiet 0 (fullConn true) (ascii "bye") false =
      some { conn := fullConn true, attempts := 1, sleptMs := 0, exit := Exit.closeSeen } :=
  have hobs : ∀ k, observed quiet (fullConn true) k = fullConn true := by
    intro k
    induction k with
    | zero => rfl
    | succ k ih => simpa [observed, quiet] using ih
  have h := SendMessage_blocking_ignores_close quiet (fullConn true) (ascii "bye")
    (fun k => by rw [hobs k]; decide)
  ⟨rfl, h.1, h.2 rfl 0⟩

theorem sendLoop_wait (w : Surroundings) (s : SSHConnection) (message : GoString) :
    ∀ (n left i sleptMs : Nat),
      (∀ j, i ≤ j → j < i + n →
        (observed w s j).Close.closed = false ∧ (observed w s j).Messages.hasSpace = false) →
      sendLoop w message (left + n) i (observed w s i) sleptMs =
        sendLoop w message left (i + n) (observed w s (i + n)) (sleptMs + 100 * n) := by
  intro n
  induction n with
  | zero => intro left i sleptMs _; rfl
  | succ n ih =>
      intro left i sleptMs h
      have hi := h i (Nat.le_refl i) (by omega)
      have hstep : sendLoop w message (left + n + 1) i (observed w s i) sleptMs =
          sendLoop w message (left + n) (i + 1) (observed w s (i + 1)) (sleptMs + 100) := by
        simp [sendLoop, hi.1, hi.2, observed]
      have hrest := ih left (i + 1) (sleptMs + 100) (fun j h1 h2 => h j (by omega) (by omega))
      have e1 : i + 1 + n = i + (n + 1) := by omega
      have e2 : sleptMs + 100 + 100 * n = sleptMs + 100 * (n + 1) := by omega
      rw [show left + (n + 1) = left + n + 1 from rfl, hstep, hrest, e1, e2]

/-- C6. Bounded non-blocking notify. If the queue is full and the close signal
open on each of the five attempts, `SendMessage(message, false)` makes exactly
5 attempts, sleeps 500 ms in total (100 ms after each), and returns without
having enqueued anything: the session is as the other goroutines left it, so
the queue holds what it held if they did not touch it. If
the first attempt to find the session otherwise is attempt `k` (counted from 0)
and finds space in the queue and the signal open, the message is appended once
at the tail of the queue and the call returns after `k + 1` attempts and
`100 * k` ms of sleep. -/
theorem SendMessage_nonblocking_bounded (w : Surroundings) (fuel : Nat) (s : SSHConnection)
    (message : GoString) :
    ((∀ k, k < 5 →
        (observed w s k).Close.closed = false ∧ (observed w s k).Messages.hasSpace = false) →
      SendMessage w fuel s message false =
        some { conn := observed w s 5, attempts := 5, sleptMs := 500, exit := Exit.gaveUp }) ∧
    ((∀ k x, (w.interfere k x).Messages = x.Messages) →
      (observed w s 5).Messages = s.Messages) ∧
    (∀ k, k < 5 →
      (∀ j, j < k →
        (observed w s j).Close.closed = false ∧ (observed w s j).Messages.hasSpace = false) →
      (observed w s k).Close.closed = false → (observed w s k).Messages.hasSpace = true →
      SendMessage w fuel s message false =
        some { conn := enqueue (observed w s k) message, attempts := k + 1, sleptMs := 100 * k,
               exit := Exit.delivered } ∧
      (enqueue (observed w s k) message).Messages.buf
        = (observed w s k).Messages.buf ++ [message]) := by
  constructor
  · intro h
    have := sendLoop_wait w s message 5 0 0 0 (fun j _ h2 => h j (by omega))
    simp only [SendMessage, Bool.false_eq_true, if_false]
    simp only [Nat.zero_add, observed] at this
    rw [this]
    simp [sendLoop, observed]
  constructor
  · intro h
    simp only [observed, h]
  · intro k hk hbefore hopen hspace
    refine ⟨?_, rfl⟩
    have := sendLoop_wait w s message k (5 - k) 0 0 (fun j _ h2 => hbefore j (by omega))
    have h5 : 5 - k + k = 5 := by omega
    simp only [SendMessage, Bool.false_eq_true, if_false]
    rw [h5] at this
    simp only [Nat.zero_add, observed] at this
    rw [this]
    obtain ⟨m, hm⟩ : ∃ m, 5 - k = m + 1 := ⟨4 - k, by omega⟩
    rw [hm]
    simp [sendLoop, hopen, hspace]

/-- Witness for C6: a full queue nobody drains (five attempts, 500 ms, nothing
enqueued), and a full queue a receiver drains during the third sleep (delivery
on the fourth attempt after 300 ms). -/
theorem SendMessage_nonblocking_bounded_witness :
    SendMessage quiet 0 (fullConn false) (ascii "hello") false =
      some { conn := fullConn false, attempts := 5, sleptMs := 500, exit := Exit.gaveUp } ∧
    SendMessage drainThird 0 (fullConn false) (ascii "hello") false =
      some { conn := { fullConn false with Messages := ⟨[ascii "hello"], 1⟩ }, attempts := 4,
             sleptMs := 300, exit := Exit.delivered } :=
  ⟨(SendMessage_nonblocking_bounded quiet 0 (fullConn false) (ascii "hello")).1 (by decide),
   ((SendMessage_nonblocking_bounded drainThird 0 (fullConn false) (ascii "hello")).2.2 3
      (by decide) (by decide) (by decide) (by decide)).1⟩

/-! ### Claims about the relay -/

/-- C9 as stated fails: with idle-timeout enforcement on, the copy loop the
caller of `CopyBoth` runs itself does not read from the public endpoint
(`writer`) and write to the tunnel endpoint (`reader`). -/
theorem CopyBoth_foreground_not_public_to_tunnel :
    ¬ (readsFrom (CopyBoth ⟨true, false⟩ (fun _ _ => none)).foreground = some Endpoint.writer ∧
       writesTo (CopyBoth ⟨true, false⟩ (fun _ _ => none)).foreground = some Endpoint.reader ∧
       readsFrom (CopyBoth ⟨true, false⟩ (fun _ _ => none)).spawned = some Endpoint.reader ∧
       writesTo (CopyBoth ⟨true, false⟩ (fun _ _ => none)).spawned = some Endpoint.writer) := by
  decide

/-- C9, amended. In `CopyBoth(writer, reader)` the public endpoint `writer` is
the one wrapped by the idle-timeout wrapper (exactly when `idle-connection` is
set). The copy loop the caller runs itself reads from the tunnel endpoint
`reader` and writes to the public endpoint ("tunnel -> public"); the loop
started as a goroutine reads from the public endpoint and writes to the tunnel
endpoint ("public -> tunnel"). -/
theorem CopyBoth_foreground_tunnel_to_public (v : Viper)
    (ioCopy : Stream → Stream → Option GoError) :
    readsFrom (CopyBoth v ioCopy).foreground = some Endpoint.reader ∧
    writesTo (CopyBoth v ioCopy).foreground = some Endpoint.writer ∧
    readsFrom (CopyBoth v ioCopy).spawned = some Endpoint.writer ∧
    writesTo (CopyBoth v ioCopy).spawned = some Endpoint.reader ∧
    (CopyBoth v ioCopy).foreground.head? =
      some (RelayEvent.copy
        (if v.idleConnection then Stream.idleTimeout Endpoint.writer
          else Stream.plain Endpoint.writer)
        (Stream.plain Endpoint.reader)) ∧
    (CopyBoth v ioCopy).spawned.head? =
      some (RelayEvent.copy (Stream.plain Endpoint.reader)
        (if v.idleConnection then Stream.idleTimeout Endpoint.writer
          else Stream.plain Endpoint.writer)) := by
  obtain ⟨idle, dbg⟩ := v
  cases idle <;>
    simp [CopyBoth, copyToWriter, copyToReader, tcon, readsFrom, writesTo, Stream.endpoint]

/-- C10. Relay mutual closure: whatever `io.Copy` ends with and whether or not
`debug` is set, each copy loop of `CopyBoth` consists of its `io.Copy`, then at
most one logged line, then `Close` on the tunnel endpoint (`reader`) and `Close`
on the public endpoint (`writer`), in that order. In particular both closes
have been called by the time `CopyBoth` returns. `CopyBoth` has no result, so
no error reaches the caller; an error is logged exactly when `debug` is set. -/
theorem CopyBoth_closes_both (v : Viper) (ioCopy : Stream → Stream → Option GoError) :
    (∃ logged,
      (CopyBoth v ioCopy).foreground =
        [RelayEvent.copy (tcon v) (Stream.plain Endpoint.reader)] ++ logged ++
          [RelayEvent.close Endpoint.reader, RelayEvent.close Endpoint.writer] ∧
      logged.length ≤ 1 ∧
      (∀ e ∈ logged, v.debug = true ∧ ∃ err,
        ioCopy (tcon v) (Stream.plain Endpoint.reader) = some err ∧
        e = RelayEvent.logError "Error copying to writer:" err)) ∧
    (∃ logged,
      (CopyBoth v ioCopy).spawned =
        [RelayEvent.copy (Stream.plain Endpoint.reader) (tcon v)] ++ logged ++
          [RelayEvent.close Endpoint.reader, RelayEvent.close Endpoint.writer] ∧
      logged.length ≤ 1 ∧
      (∀ e ∈ logged, v.debug = true ∧ ∃ err,
        ioCopy (Stream.plain Endpoint.reader) (tcon v) = some err ∧
        e = RelayEvent.logError "Error copying to reader:" err)) ∧
    RelayEvent.close Endpoint.reader ∈ (CopyBoth v ioCopy).foreground ∧
    RelayEvent.close Endpoint.writer ∈ (CopyBoth v ioCopy).foreground ∧
    RelayEvent.close Endpoint.reader ∈ (CopyBoth v ioCopy).spawned ∧
    RelayEvent.close Endpoint.writer ∈ (CopyBoth v ioCopy).spawned := by
  refine ⟨?_, ?_, ?_, ?_, ?_, ?_⟩
  · simp only [CopyBoth, copyToWriter, closeBoth]
    rcases ioCopy (tcon v) (Stream.plain Endpoint.reader) with _ | err
    · exact ⟨[], rfl, by simp, by simp⟩
    · by_cases hd : v.debug = true
      · exact ⟨[RelayEvent.logError "Error copying to writer:" err], by simp [hd], by simp,
          by simp [hd]⟩
      · exact ⟨[], by simp [hd], by simp, by simp⟩
  · simp only [CopyBoth, copyToReader, closeBoth]
    rcases ioCopy (Stream.plain Endpoint.reader) (tcon v) with _ | err
    · exact ⟨[], rfl, by simp, by simp⟩
    · by_cases hd : v.debug = true
      · exact ⟨[RelayEvent.logError "Error copying to reader:" err], by simp [hd], by simp,
          by simp [hd]⟩
      · exact ⟨[], by simp [hd], by simp, by simp⟩
  all_goals simp [CopyBoth, copyToWriter, copyToReader, closeBoth]

end Sish
